import Mathlib

/-!
Verification of the block-synchronization core of the madara repository
against its natural-language specification.

The Rust sources are shallowly embedded: pure functions become Lean
functions, machine integers become Nat with an explicit modulus where
overflow matters, fallible code returns Except, and the cryptographic
hash primitives as well as the database-level trie mutation (which live
outside the verified sources) are abstracted as explicit function-valued
environment parameters.  Definitions keep the source names.
-/

/-! ## Basic data model -/

/-- Field elements of the STARK field.  The claims under verification only
compare felts for equality, so they are modelled as natural numbers. -/
def Felt : Type := Nat

instance : DecidableEq Felt := fun a b => Nat.decEq a b
instance : BEq Felt := instBEqOfDecidableEq
instance : LawfulBEq Felt := inferInstanceAs (@LawfulBEq Nat instBEqOfDecidableEq)
instance : OfNat Felt n := ⟨(n : Nat)⟩
instance : Inhabited Felt := ⟨(0 : Nat)⟩

/-- Modelled from the spec: the protocol version type of mp_chain_config
(not part of the verified sources).  In the original it is a 4-byte array
ordered lexicographically; encoding the bytes as a big-endian base-256
number gives the same linear order, so a version is modelled as a Nat. -/
def StarknetVersion : Type := Nat

instance : DecidableEq StarknetVersion := fun a b => Nat.decEq a b
instance : LinearOrder StarknetVersion := inferInstanceAs (LinearOrder Nat)
instance : OfNat StarknetVersion n := ⟨(n : Nat)⟩

/-- Version v0.13.2, whose byte representation is [0, 13, 2, 0]:
13 * 65536 + 2 * 256 = 852480. -/
def StarknetVersion.V0_13_2 : StarknetVersion := (852480 : Nat)

/-! ## ChainHead and BlockNStatus (crates/client/db/src/chain_head.rs) -/

/-- The u64 modulus: stored counters are AtomicU64 values. -/
def U64_MOD : Nat := 2 ^ 64

/-- Embedding of BlockNStatus.get: the stored u64 with checked_sub 1, so
a stored 0 decodes to none. -/
def blockNStatus_get (stored : Nat) : Option Nat :=
  if stored = 0 then none else some (stored - 1)

/-- Embedding of BlockNStatus.set: stores block_n.map (n + 1) with u64
wrap-around (release-mode Rust semantics of the + 1), or 0 for none. -/
def blockNStatus_set (block_n : Option Nat) : Nat :=
  match block_n with
  | some n => (n + 1) % U64_MOD
  | none => 0

/-- Embedding of ChainHead: the seven per-facet counters, each holding the
raw stored u64 of its BlockNStatus cell. -/
structure ChainHead where
  headers : Nat
  state_diffs : Nat
  classes : Nat
  transactions : Nat
  events : Nat
  l1_head : Nat
  global_trie : Nat
deriving DecidableEq

/-- Maximum of two optional counters with the Rust Ord-on-Option
semantics, where none is the least element. -/
def optionMax (a b : Option Nat) : Option Nat :=
  match a, b with
  | none, b => b
  | some x, none => some x
  | some x, some y => some (max x y)

/-- Minimum of two optional counters with the Rust Ord-on-Option
semantics, where none is the least element. -/
def optionMin (a b : Option Nat) : Option Nat :=
  match a, b with
  | none, _ => none
  | some _, none => none
  | some x, some y => some (min x y)

/-- Embedding of ChainHead.latest_full_block_n exactly as written in the
source: a chain of Option max over the six sync facets. -/
def ChainHead.latest_full_block_n (h : ChainHead) : Option Nat :=
  optionMax
    (optionMax
      (optionMax
        (optionMax (optionMax (blockNStatus_get h.headers) (blockNStatus_get h.state_diffs))
          (blockNStatus_get h.classes))
        (blockNStatus_get h.transactions))
      (blockNStatus_get h.events))
    (blockNStatus_get h.global_trie)

/-- Modelled from the spec: the composite head as the specification words
it, namely the minimum over the six per-facet counters. -/
def ChainHead.latest_full_block_n_specMin (h : ChainHead) : Option Nat :=
  optionMin
    (optionMin
      (optionMin
        (optionMin (optionMin (blockNStatus_get h.headers) (blockNStatus_get h.state_diffs))
          (blockNStatus_get h.classes))
        (blockNStatus_get h.transactions))
      (blockNStatus_get h.events))
    (blockNStatus_get h.global_trie)

/-- ChainHead whose headers facet is at block 1 (stored 2) while every
other facet is at block 0 (stored 1): none of the six counters is none. -/
def exampleHeadC1 : ChainHead :=
  { headers := 2, state_diffs := 1, classes := 1, transactions := 1, events := 1,
    l1_head := 1, global_trie := 1 }

/-! ## Block importer (crates/madara/client/sync/src/import.rs) -/

/-- Embedding of BlockValidationConfig. -/
structure BlockValidationConfig where
  trust_class_hashes : Bool
  trust_parent_hash : Bool
  no_check : Bool
deriving DecidableEq

/-- Rust Default for BlockValidationConfig: every switch off. -/
def defaultValidationConfig : BlockValidationConfig :=
  { trust_class_hashes := false, trust_parent_hash := false, no_check := false }

/-- Class types, as in mp_class. -/
inductive ClassType where
  | sierra
  | legacy
deriving DecidableEq

/-- Embedding of BlockImportError, keeping the got and expected payloads
of each variant in source order (got first, expected second). -/
inductive BlockImportError where
  | TransactionCount (got expected : Nat)
  | TransactionCommitment (got expected : Felt)
  | EventCount (got expected : Nat)
  | EventCommitment (got expected : Felt)
  | StateDiffLength (got expected : Nat)
  | StateDiffCommitment (got expected : Felt)
  | ReceiptCommitment (got expected : Felt)
  | UnexpectedClass (class_hash : Felt)
  | ClassType (class_hash : Felt) (got expected : ClassType)
  | ClassHash (got expected : Felt)
  | ClassCount (got expected : Nat)
  | CompiledClassHash (class_hash got expected : Felt)
  | CompilationClassError (class_hash : Felt) (error : Nat)
  | ComputeClassHash (class_hash : Felt) (error : Nat)
  | BlockNumber (got expected : Nat)
  | GlobalStateRoot (got expected : Felt)
  | InternalDb (context : String)
  | Internal (msg : String)
deriving DecidableEq

/-- Embedding of the header fields consumed by the importer. -/
structure Header where
  protocol_version : StarknetVersion
  transaction_count : Nat
  transaction_commitment : Felt
  event_count : Nat
  event_commitment : Felt
  state_diff_length : Option Nat
  state_diff_commitment : Option Felt
  receipt_commitment : Option Felt
  global_state_root : Felt
deriving DecidableEq

/-- Embedding of TransactionWithReceipt.  The transaction and receipt
contents are opaque to the importer logic under verification (they are
only fed to the abstracted hash functions), so both are modelled as
opaque identifiers. -/
structure TransactionWithReceipt where
  transaction : Nat
  receipt : Nat
deriving DecidableEq

/-- Modelled from the spec: the cryptographic commitment primitives of
mp_block::commitments and the chain id of the backend, which live outside
the verified sources.  They are abstracted as an explicit environment of
function parameters. -/
structure TxCommitmentEnv where
  chain_id : Felt
  computeTxHash : Nat → Felt → StarknetVersion → Bool → Felt
  computeTxHashWithSignature : Nat → Felt → StarknetVersion → Felt
  computeReceiptHash : Nat → Felt
  compute_transaction_commitment : List Felt → StarknetVersion → Felt
  compute_receipt_commitment : List Felt → StarknetVersion → Felt

/-- Embedding of BlockImporter::verify_transactions.  The parallel hash
map never fails (every closure returns Ok), so it is a plain List.map;
the three checks then run in source order. -/
def verify_transactions (cfg : BlockValidationConfig) (env : TxCommitmentEnv)
    (transactions : List TransactionWithReceipt) (check_against : Header)
    (allow_pre_v0_13_2 : Bool) : Except BlockImportError (Felt × Felt) :=
  let starknet_version := max check_against.protocol_version StarknetVersion.V0_13_2
  let is_pre_v0_13_2_special_case :=
    allow_pre_v0_13_2 && decide (check_against.protocol_version < StarknetVersion.V0_13_2)
  let tx_hashes_with_signature_and_receipt_hashes :=
    transactions.map fun tx =>
      let got := env.computeTxHash tx.transaction env.chain_id starknet_version false
      (env.computeTxHashWithSignature tx.transaction got starknet_version,
        env.computeReceiptHash tx.receipt)
  if cfg.no_check = false ∧ check_against.transaction_count ≠ transactions.length then
    .error (.TransactionCount transactions.length check_against.transaction_count)
  else
    let transaction_commitment :=
      env.compute_transaction_commitment
        (tx_hashes_with_signature_and_receipt_hashes.map Prod.fst) starknet_version
    if cfg.no_check = false ∧ is_pre_v0_13_2_special_case = false ∧
        check_against.transaction_commitment ≠ transaction_commitment then
      .error (.TransactionCommitment transaction_commitment check_against.transaction_commitment)
    else
      let receipt_commitment :=
        env.compute_receipt_commitment
          (tx_hashes_with_signature_and_receipt_hashes.map Prod.snd) starknet_version
      if cfg.no_check = false ∧ is_pre_v0_13_2_special_case = false ∧
          check_against.receipt_commitment.getD 0 ≠ receipt_commitment then
        .error (.ReceiptCommitment receipt_commitment (check_against.receipt_commitment.getD 0))
      else
        .ok (transaction_commitment, receipt_commitment)

/-! ### Classes (verify_compile_classes) -/

/-- Embedding of mp_class::ClassInfo: either a Sierra class (contract
class plus declared compiled-class hash) or a legacy class.  Contract
class contents are opaque identifiers fed to the abstracted compiler. -/
inductive ClassInfo where
  | sierra (contract_class : Nat) (compiled_class_hash : Felt)
  | legacy (contract_class : Nat)
deriving DecidableEq

/-- Embedding of ClassInfoWithHash. -/
structure ClassInfoWithHash where
  class_hash : Felt
  class_info : ClassInfo
deriving DecidableEq

/-- Embedding of mp_state_update::DeclaredClassCompiledClass: the expected
compiled-class marker looked up in check_against. -/
inductive DeclaredClassCompiledClass where
  | sierra (compiled_class_hash : Felt)
  | legacy
deriving DecidableEq

/-- Embedding of mp_class::ConvertedClass. -/
inductive ConvertedClass where
  | sierra (class_hash : Felt) (contract_class : Nat) (compiled_class_hash : Felt)
      (compiled : Nat)
  | legacy (class_hash : Felt) (contract_class : Nat)
deriving DecidableEq

/-- Modelled from the spec: class-hash computation and Sierra-to-CASM
compilation of mp_class, which live outside the verified sources; their
failure payloads are opaque. -/
structure ClassEnv where
  sierraComputeClassHash : Nat → Except Nat Felt
  compileToCasm : Nat → Except Nat (Felt × Nat)
  legacyComputeClassHash : Nat → Except Nat Felt

/-- Embedding of BlockImporter::verify_compile_class, with every check in
source order and with the exact no_check and trust_class_hashes guards of
the source. -/
def verify_compile_class (cfg : BlockValidationConfig) (env : ClassEnv)
    (class0 : ClassInfoWithHash)
    (check_against : List (Felt × DeclaredClassCompiledClass)) :
    Except BlockImportError ConvertedClass :=
  let class_hash := class0.class_hash
  match check_against.lookup class_hash with
  | none => .error (.UnexpectedClass class_hash)
  | some check =>
    match class0.class_info with
    | .sierra contract_class compiled_class_hash =>
      match check with
      | .legacy => .error (.ClassType class_hash .legacy .sierra)
      | .sierra expected =>
        if cfg.no_check = false ∧ compiled_class_hash ≠ expected then
          .error (.CompiledClassHash class_hash compiled_class_hash expected)
        else
          let hashCheck : Except BlockImportError Unit :=
            if cfg.no_check = false ∧ cfg.trust_class_hashes = false then
              match env.sierraComputeClassHash contract_class with
              | .error e => .error (.ComputeClassHash class_hash e)
              | .ok expectedHash =>
                if cfg.no_check = false ∧ class_hash ≠ expectedHash then
                  .error (.ClassHash class_hash expectedHash)
                else .ok ()
            else .ok ()
          match hashCheck with
          | .error e => .error e
          | .ok () =>
            match env.compileToCasm contract_class with
            | .error e => .error (.CompilationClassError class_hash e)
            | .ok (compiled_hash, compiled_class) =>
              if cfg.no_check = false ∧ compiled_hash ≠ compiled_class_hash then
                .error (.CompiledClassHash class_hash compiled_class_hash compiled_hash)
              else
                .ok (.sierra class_hash contract_class compiled_hash compiled_class)
    | .legacy contract_class =>
      if cfg.no_check = false ∧ check ≠ .legacy then
        .error (.ClassType class_hash .sierra .legacy)
      else
        let hashCheck : Except BlockImportError Unit :=
          if cfg.trust_class_hashes = false then
            match env.legacyComputeClassHash contract_class with
            | .error e => .error (.ComputeClassHash class_hash e)
            | .ok expectedHash =>
              if cfg.no_check = false ∧ class_hash ≠ expectedHash then
                .error (.ClassHash class_hash expectedHash)
              else .ok ()
          else .ok ()
        match hashCheck with
        | .error e => .error e
        | .ok () => .ok (.legacy class_hash contract_class)

/-- Sequential collect of Except results, the semantics of the Rust
collect over Result: the first error short-circuits. -/
def exceptMapList {α β ε : Type} (f : α → Except ε β) : List α → Except ε (List β)
  | [] => .ok []
  | a :: l =>
    match f a with
    | .error e => .error e
    | .ok b =>
      match exceptMapList f l with
      | .error e => .error e
      | .ok bs => .ok (b :: bs)

/-- Embedding of BlockImporter::verify_compile_classes: the count check
first (never guarded by no_check), then per-class verification collected
into a single result, in declaration order. -/
def verify_compile_classes (cfg : BlockValidationConfig) (env : ClassEnv)
    (declared_classes : List ClassInfoWithHash)
    (check_against : List (Felt × DeclaredClassCompiledClass)) :
    Except BlockImportError (List ConvertedClass) :=
  if check_against.length ≠ declared_classes.length then
    .error (.ClassCount declared_classes.length check_against.length)
  else
    exceptMapList (fun class0 => verify_compile_class cfg env class0 check_against)
      declared_classes

/-! ### Global trie apply (apply_to_global_trie) -/

/-- Modelled from the spec: the persistent global-trie state mutated by
the db-level apply step, opaque to the importer logic under
verification. -/
def TrieState : Type := Nat

instance : Inhabited TrieState := ⟨(0 : Nat)⟩
instance : OfNat TrieState n := ⟨(n : Nat)⟩

/-- Modelled from the spec: state diffs are opaque payloads handed to the
db-level trie mutation (mp_state_update is outside the verified
sources). -/
def StateDiff : Type := Nat

instance : Inhabited StateDiff := ⟨(0 : Nat)⟩
instance : OfNat StateDiff n := ⟨(n : Nat)⟩

/-- Result of looking a block number up in the header store, mirroring
get_block_info followed by as_nonpending_owned. -/
inductive BlockLookup where
  | missing
  | pending
  | found (header : Header)

/-- Modelled from the spec: the db-level trie mutation
MadaraBackend::apply_to_global_trie, which applies the state diffs for
blocks starting at the given number and returns the resulting global
root together with the mutated trie. -/
structure GlobalTrieEnv where
  dbApplyToGlobalTrie : TrieState → Nat → List StateDiff → Felt × TrieState

/-- World state touched by the importer apply step: the global trie and
the immutable header store. -/
structure ImportWorld where
  trie : TrieState
  headers : Nat → BlockLookup

/-- Errors surfaced by apply_to_global_trie: either a structured
BlockImportError lifted into anyhow, or a bare anyhow context message. -/
inductive ApplyError where
  | importError (e : BlockImportError)
  | anyhowContext (msg : String)

/-- Embedding of BlockImporter::apply_to_global_trie: an empty range
returns Ok immediately without touching the world; otherwise the trie is
mutated, the header of the last block of the range is fetched, and under
no_check = false a root mismatch yields GlobalStateRoot with got the
computed root and expected the header root. -/
def apply_to_global_trie (cfg : BlockValidationConfig) (env : GlobalTrieEnv)
    (w : ImportWorld) (block_range_start block_range_end : Nat)
    (state_diffs : List StateDiff) : Except ApplyError Unit × ImportWorld :=
  if block_range_end ≤ block_range_start then (.ok (), w)
  else
    let applied := env.dbApplyToGlobalTrie w.trie block_range_start state_diffs
    let got := applied.fst
    let w1 : ImportWorld := { trie := applied.snd, headers := w.headers }
    match w.headers (block_range_end - 1) with
    | .missing => (.error (.anyhowContext "Block header cannot be found"), w1)
    | .pending => (.error (.anyhowContext "Block is pending"), w1)
    | .found hdr =>
      if cfg.no_check = false ∧ hdr.global_state_root ≠ got then
        (.error (.importError (.GlobalStateRoot got hdr.global_state_root)), w1)
      else (.ok (), w1)

/-! ## RPC event filtering
(crates/client/rpc/src/versions/v0_7_1/methods/read/get_events.rs) -/

/-- Embedding of mp_receipt::Event. -/
structure Event where
  from_address : Felt
  keys : List Felt
  data : List Felt
deriving DecidableEq

/-- Receipt view used by get_block_events: its transaction hash and its
owned events. -/
structure TransactionReceipt where
  transaction_hash : Felt
  events : List Event
deriving DecidableEq

/-- Embedding of MadaraMaybePendingBlockInfo restricted to the fields
read by get_block_events. -/
inductive MadaraMaybePendingBlockInfo where
  | pending
  | notPending (block_hash : Felt) (block_number : Nat)
deriving DecidableEq

/-- Embedding of MadaraMaybePendingBlock restricted to the fields read by
get_block_events: info and the receipts of the inner block. -/
structure MadaraMaybePendingBlock where
  info : MadaraMaybePendingBlockInfo
  receipts : List TransactionReceipt
deriving DecidableEq

/-- Embedding of starknet_core EmittedEvent. -/
structure EmittedEvent where
  from_address : Felt
  keys : List Felt
  data : List Felt
  block_hash : Option Felt
  block_number : Option Nat
  transaction_hash : Felt
deriving DecidableEq

/-- Embedding of the key-matching closure of get_block_events: an
enumerate-and-all over the filter keys. -/
def matchKeysCode (eventKeys : List Felt) (keys : List (List Felt)) : Bool :=
  keys.enum.all fun p =>
    decide (eventKeys.length > p.fst) &&
      (p.snd.isEmpty || p.snd.contains (eventKeys.getD p.fst 0))

/-- Embedding of get_block_events: flatten the receipts, drop events
rejected by the address filter or the key filter, and decorate the rest
with block hash, block number and transaction hash. -/
def get_block_events (block : MadaraMaybePendingBlock) (address : Option Felt)
    (keys : List (List Felt)) : List EmittedEvent :=
  let bhbn : Option Felt × Option Nat :=
    match block.info with
    | .pending => (none, none)
    | .notPending block_hash block_number => (some block_hash, some block_number)
  block.receipts.flatMap fun receipt =>
    receipt.events.filterMap fun event =>
      if (match address with
          | some a => a != event.from_address
          | none => false) then none
      else if matchKeysCode event.keys keys then
        some { from_address := event.from_address, keys := event.keys, data := event.data,
               block_hash := bhbn.fst, block_number := bhbn.snd,
               transaction_hash := receipt.transaction_hash }
      else none

/-- Every event of the block, in block order, decorated exactly as
get_block_events decorates them but with no filtering. -/
def blockEmittedEvents (block : MadaraMaybePendingBlock) : List EmittedEvent :=
  let bhbn : Option Felt × Option Nat :=
    match block.info with
    | .pending => (none, none)
    | .notPending block_hash block_number => (some block_hash, some block_number)
  block.receipts.flatMap fun receipt =>
    receipt.events.map fun event =>
      { from_address := event.from_address, keys := event.keys, data := event.data,
        block_hash := bhbn.fst, block_number := bhbn.snd,
        transaction_hash := receipt.transaction_hash }

/-- The filter predicate in the words of the claim: the address filter is
satisfied, and for every index i below the key-filter length the event has
more than i keys and the i-th key list is either empty or contains the
i-th event key. -/
def specEventMatches (address : Option Felt) (keys : List (List Felt))
    (ev : EmittedEvent) : Bool :=
  (match address with
   | some a => a == ev.from_address
   | none => true) &&
  decide (∀ i, i < keys.length →
    i < ev.keys.length ∧ (keys.getD i [] = [] ∨ ev.keys.getD i 0 ∈ keys.getD i []))

/-! ### get_events (the paginated RPC endpoint) -/

/-- Embedding of crate::constants::MAX_EVENTS_KEYS (the constants module
is outside the verified sources; the value is immaterial to the claims,
which only assume the filter is within the limit). -/
def MAX_EVENTS_KEYS : Nat := 100

/-- Embedding of crate::constants::MAX_EVENTS_CHUNK_SIZE. -/
def MAX_EVENTS_CHUNK_SIZE : Nat := 1000

/-- Block tags of the RPC block id. -/
inductive BlockTag where
  | latest
  | pending
deriving DecidableEq

/-- Embedding of starknet_core BlockId. -/
inductive BlockId where
  | number (n : Nat)
  | hash (h : Felt)
  | tag (t : BlockTag)
deriving DecidableEq

/-- The RPC error variants reachable from get_events. -/
inductive StarknetRpcApiError where
  | TooManyKeysInFilter
  | PageSizeTooBig
  | BlockNotFound
  | InvalidContinuationToken
  | InternalServerError
deriving DecidableEq

/-- Embedding of the rpc ContinuationToken. -/
structure ContinuationToken where
  block_n : Nat
  event_n : Nat
deriving DecidableEq

/-- Embedding of EventsPage: the returned chunk and the optional
serialized continuation token. -/
structure EventsPage where
  events : List EmittedEvent
  continuation_token : Option String
deriving DecidableEq

/-- Embedding of EventFilterWithPage (event filter plus result page
request). -/
structure EventFilterWithPage where
  from_block : Option BlockId
  to_block : Option BlockId
  address : Option Felt
  keys : Option (List (List Felt))
  continuation_token : Option String
  chunk_size : Nat

/-- Modelled from the spec: the backing store and helpers consumed by
get_events — block-number resolution and block fetch against the db, and
the ContinuationToken string parse and print (both outside the verified
sources). -/
structure RpcEnv where
  getBlockN : BlockId → Except StarknetRpcApiError Nat
  getBlock : BlockId → Except StarknetRpcApiError MadaraMaybePendingBlock
  parseToken : String → Option ContinuationToken
  tokenToString : ContinuationToken → String

/-- Resolution of the from_block field: pending maps to latest + 1, an
explicit id is looked up, absence means 0. -/
def resolveFromBlock (env : RpcEnv) (latest_block : Nat) (b : Option BlockId) :
    Except StarknetRpcApiError Nat :=
  match b with
  | some (.tag .pending) => .ok (latest_block + 1)
  | some block_id => env.getBlockN block_id
  | none => .ok 0

/-- Resolution of the to_block field: pending maps to latest + 1, an
explicit id is looked up, absence means the latest block. -/
def resolveToBlock (env : RpcEnv) (latest_block : Nat) (b : Option BlockId) :
    Except StarknetRpcApiError Nat :=
  match b with
  | some (.tag .pending) => .ok (latest_block + 1)
  | some block_id => env.getBlockN block_id
  | none => .ok latest_block

/-- Embedding of the block loop of get_events: for each block number the
block is fetched (pending beyond the latest), its filtered events are
skipped and truncated according to the continuation token and the chunk
size, and a full chunk returns early with a new token. -/
def get_events_loop (env : RpcEnv) (address : Option Felt) (keys : List (List Felt))
    (chunk_size latest_block from_block token_event_n : Nat)
    (acc : List EmittedEvent) : List Nat → Except StarknetRpcApiError EventsPage
  | [] => .ok { events := acc, continuation_token := none }
  | block_n :: rest =>
    match (if block_n ≤ latest_block then env.getBlock (.number block_n)
           else env.getBlock (.tag .pending)) with
    | .error e => .error e
    | .ok block =>
      let block_filtered_events := get_block_events block address keys
      if block_n = from_block ∧ block_filtered_events.length < token_event_n then
        .error .InvalidContinuationToken
      else
        let block_filtered_reduced_events :=
          (block_filtered_events.drop
            (if block_n = from_block then token_event_n else 0)).take
            (chunk_size - acc.length)
        let num_events := block_filtered_reduced_events.length
        let filtered_events := acc ++ block_filtered_reduced_events
        if filtered_events.length = chunk_size then
          let event_n :=
            if block_n = from_block then token_event_n + chunk_size else num_events
          .ok { events := filtered_events,
                continuation_token :=
                  some (env.tokenToString { block_n := block_n, event_n := event_n }) }
        else
          get_events_loop env address keys chunk_size latest_block from_block
            token_event_n filtered_events rest

/-- Embedding of get_events: limit checks, block-range resolution, the
empty-range early return, continuation-token handling and the block
loop. -/
def get_events (env : RpcEnv) (filter : EventFilterWithPage) :
    Except StarknetRpcApiError EventsPage :=
  let from_address := filter.address
  let keys := filter.keys.getD []
  let chunk_size := filter.chunk_size
  if keys.length > MAX_EVENTS_KEYS then .error .TooManyKeysInFilter
  else if chunk_size > MAX_EVENTS_CHUNK_SIZE then .error .PageSizeTooBig
  else
    match env.getBlockN (.tag .latest) with
    | .error e => .error e
    | .ok latest_block =>
      match resolveFromBlock env latest_block filter.from_block with
      | .error e => .error e
      | .ok from_block =>
        match resolveToBlock env latest_block filter.to_block with
        | .error e => .error e
        | .ok to_block =>
          if from_block > to_block then
            .ok { events := [], continuation_token := none }
          else
            match (match filter.continuation_token with
                   | some token =>
                     match env.parseToken token with
                     | some t => Except.ok t
                     | none => .error StarknetRpcApiError.InvalidContinuationToken
                   | none => Except.ok { block_n := from_block, event_n := 0 }) with
            | .error e => .error e
            | .ok continuation_token =>
              let from_block := continuation_token.block_n
              get_events_loop env from_address keys chunk_size latest_block from_block
                continuation_token.event_n []
                (List.range' from_block (to_block + 1 - from_block))

/-! ## Transaction hash with signature
(crates/client/sync/src/commitments/transactions.rs) -/

/-- Transaction kinds of starknet_api::transaction::Transaction. -/
inductive TransactionKind where
  | declare
  | deploy
  | deployAccount
  | invoke
  | l1Handler
deriving DecidableEq

/-- View of a starknet_api transaction as consumed by
calculate_transaction_hash_with_signature: its kind and its signature
felts. -/
structure ApiTransaction where
  kind : TransactionKind
  signature : List Felt
deriving DecidableEq

/-- Modelled from the spec: the HasherT primitives (Pedersen) and the
protocol transaction-hash computation, all outside the verified
sources. -/
structure HasherEnv where
  compute_hash_on_elements : List Felt → Felt
  hash_elements : Felt → Felt → Felt
  compute_transaction_hash : ApiTransaction → Felt → Bool → Option Nat → Felt

/-- Embedding of calculate_transaction_hash_with_signature: signatures
are hashed in for Invoke transactions or for any transaction from block
61394 on, the empty element list is hashed otherwise, and the result
combines the protocol transaction hash with that signature hash. -/
def calculate_transaction_hash_with_signature (env : HasherEnv)
    (transaction : ApiTransaction) (chain_id : Felt) (block_number : Nat) : Felt :=
  let include_signature := decide (block_number ≥ 61394)
  let signature_hash :=
    if (match transaction.kind with
        | .invoke => true
        | _ => false) || include_signature then
      env.compute_hash_on_elements transaction.signature
    else
      env.compute_hash_on_elements []
  env.hash_elements
    (env.compute_transaction_hash transaction chain_id false (some block_number))
    signature_hash

/-! ## Bonsai trie read transactions (crates/client/db/src/bonsai_db.rs) -/

/-- Byte vectors of the trie key-value store. -/
def ByteVec : Type := List Nat

/-- Embedding of bonsai_trie DatabaseKey: the tag selects the physical
column. -/
inductive DatabaseKey where
  | trie (b : ByteVec)
  | flat (b : ByteVec)
  | trieLog (b : ByteVec)

/-- Embedding of the BonsaiTransaction read overlay: a pinned snapshot
view, an in-memory overlay of changed keys, and the base db view. -/
structure BonsaiTransaction where
  snapshot : DatabaseKey → Option ByteVec
  changed : List ((Nat × ByteVec) × Option ByteVec)
  db : DatabaseKey → Option ByteVec

/-- Outcome of running a piece of code that may panic: either a panic
(such as the unreachable macro) or a returned value. -/
inductive PanicOr (α : Type) where
  | panicked
  | returned (val : α)

/-- Embedding of BonsaiTransaction::get_by_prefix, whose body is the
unreachable macro: every invocation panics and no value is returned. -/
def bonsaiTransaction_get_by_prefix (_tx : BonsaiTransaction) (_pre : DatabaseKey) :
    PanicOr (Except Unit (List (ByteVec × ByteVec))) :=
  .panicked

/-- Embedding of BonsaiTransaction::remove_by_prefix, whose body is the
unreachable macro: every invocation panics and no value is returned. -/
def bonsaiTransaction_remove_by_prefix (_tx : BonsaiTransaction) (_pre : DatabaseKey) :
    PanicOr (BonsaiTransaction × Except Unit Unit) :=
  .panicked

/-- Concrete class environment for witness instantiations. -/
def witnessClassEnv : ClassEnv :=
  { sierraComputeClassHash := fun _ => .ok 0,
    compileToCasm := fun _ => .ok (0, 0),
    legacyComputeClassHash := fun _ => .ok 0 }

/-- Concrete declared class for witness instantiations. -/
def witnessClass : ClassInfoWithHash := { class_hash := 7, class_info := .legacy 0 }

/-- Concrete global-trie environment for witness instantiations: the trie
mutation always produces root 0 and leaves the trie untouched. -/
def witnessTrieEnv : GlobalTrieEnv := { dbApplyToGlobalTrie := fun t _ _ => (0, t) }

/-- Concrete header with global_state_root 0xb for witness instantiations
(scenario S2 of the spec). -/
def witnessHeaderB : Header :=
  { protocol_version := 0, transaction_count := 0, transaction_commitment := 0,
    event_count := 0, event_commitment := 0, state_diff_length := none,
    state_diff_commitment := none, receipt_commitment := none, global_state_root := 11 }

/-- Concrete world whose header store answers every block with the 0xb
header. -/
def witnessWorld : ImportWorld := { trie := 0, headers := fun _ => .found witnessHeaderB }

/-- Concrete transaction-commitment environment for witness
instantiations: constant hash functions. -/
def witnessTxEnv : TxCommitmentEnv :=
  { chain_id := 0,
    computeTxHash := fun _ _ _ _ => 7,
    computeTxHashWithSignature := fun _ _ _ => 8,
    computeReceiptHash := fun _ => 9,
    compute_transaction_commitment := fun _ _ => 3,
    compute_receipt_commitment := fun _ _ => 4 }

/-- Concrete pre-v0.13.2 header whose stored transaction commitment 5
disagrees with the recomputed commitment 3 of witnessTxEnv. -/
def witnessHeaderPre : Header :=
  { protocol_version := 0, transaction_count := 1, transaction_commitment := 5,
    event_count := 0, event_commitment := 0, state_diff_length := none,
    state_diff_commitment := none, receipt_commitment := none, global_state_root := 0 }

/-- Concrete RPC environment for witness instantiations: the chain is at
block 0 and block fetches fail. -/
def witnessRpcEnv : RpcEnv :=
  { getBlockN := fun _ => .ok 0,
    getBlock := fun _ => .error .BlockNotFound,
    parseToken := fun _ => none,
    tokenToString := fun _ => "0,0" }

/-- Concrete filter resolving to from_block 1 (pending) and to_block 0
(latest), an empty range. -/
def witnessEventFilter : EventFilterWithPage :=
  { from_block := some (.tag .pending), to_block := none, address := none,
    keys := none, continuation_token := none, chunk_size := 10 }

/-! ## Theorems -/

/-- Helper: the sequential Except collect cannot succeed when some
element of the list is mapped to an error. -/
theorem exceptMapList_error_of_mem {α β ε : Type} (f : α → Except ε β) :
    ∀ (l : List α) (x : α), x ∈ l → (∃ e, f x = .error e) →
      ∀ v : List β, exceptMapList f l ≠ .ok v := by
  intro l
  induction l with
  | nil => intro x hx; cases hx
  | cons a l ih =>
    intro x hx he v hok
    rcases List.mem_cons.mp hx with rfl | hmem
    · rcases he with ⟨e, he⟩
      simp [exceptMapList, he] at hok
    · cases hfa : f a with
      | error e => simp [exceptMapList, hfa] at hok
      | ok b =>
        simp only [exceptMapList, hfa] at hok
        cases hl : exceptMapList f l with
        | error e => rw [hl] at hok; cases hok
        | ok ys => exact absurd hl (ih x hmem he ys)

/-- C2: for a non-empty range whose last block has a stored (non-pending)
header, apply_to_global_trie under the default validation config succeeds
exactly when the root computed by the trie mutation equals the stored
global_state_root of that header, and on a mismatch it fails with
GlobalStateRoot carrying got = computed root and expected = header root. -/
theorem apply_to_global_trie_checks_root (env : GlobalTrieEnv) (w : ImportWorld)
    (s e : Nat) (diffs : List StateDiff) (hdr : Header) (got : Felt)
    (hne : s < e)
    (hhdr : w.headers (e - 1) = .found hdr)
    (hgot : got = (env.dbApplyToGlobalTrie w.trie s diffs).fst) :
    ((apply_to_global_trie defaultValidationConfig env w s e diffs).fst = .ok () ↔
      got = hdr.global_state_root) ∧
    (got ≠ hdr.global_state_root →
      (apply_to_global_trie defaultValidationConfig env w s e diffs).fst =
        .error (.importError (.GlobalStateRoot got hdr.global_state_root))) := by
  subst hgot
  have hnot : ¬ e ≤ s := Nat.not_le.mpr hne
  by_cases hroot : (env.dbApplyToGlobalTrie w.trie s diffs).fst = hdr.global_state_root
  · constructor
    · simp [apply_to_global_trie, hnot, hhdr, defaultValidationConfig, hroot]
    · intro hcontra; exact absurd hroot hcontra
  · constructor
    · simp only [apply_to_global_trie, if_neg hnot, hhdr]
      rw [if_pos ⟨rfl, fun hc => hroot hc.symm⟩]
      simp [hroot]
    · intro _
      simp only [apply_to_global_trie, if_neg hnot, hhdr]
      rw [if_pos ⟨rfl, fun hc => hroot hc.symm⟩]

/-- C2 witness: scenario S2 of the spec at concrete input, header root
0xb against computed root 0x0, yielding GlobalStateRoot got 0 expected
11. -/
theorem apply_to_global_trie_checks_root_witness :
    (apply_to_global_trie defaultValidationConfig witnessTrieEnv witnessWorld 0 1 []).fst =
      .error (.importError (.GlobalStateRoot 0 11)) := by
  have h := apply_to_global_trie_checks_root witnessTrieEnv witnessWorld 0 1 []
    witnessHeaderB 0 (by decide) rfl rfl
  exact h.2 (by decide)

/-- C9: for an empty block range, apply_to_global_trie returns Ok
immediately, for every validation config, and leaves the world (global
trie and header store) unchanged. -/
theorem apply_to_global_trie_empty_range (cfg : BlockValidationConfig)
    (env : GlobalTrieEnv) (w : ImportWorld) (s e : Nat) (diffs : List StateDiff)
    (h : e ≤ s) :
    apply_to_global_trie cfg env w s e diffs = (.ok (), w) := by
  simp [apply_to_global_trie, h]

/-- C9 witness: instance of the empty-range theorem on a concrete world
with range 3..3, no_check enabled, and a non-trivial diff list. -/
theorem apply_to_global_trie_empty_range_witness :
    apply_to_global_trie ⟨false, false, true⟩ witnessTrieEnv witnessWorld 3 3
      [(5 : Nat)] = (.ok (), witnessWorld) :=
  apply_to_global_trie_empty_range ⟨false, false, true⟩ witnessTrieEnv witnessWorld 3 3
    [(5 : Nat)] (by decide)

/-- C3: under the default validation config, verify_transactions computes
both commitments at the effective version sv = max(protocol_version,
V0_13_2); a count mismatch always fails TransactionCount; in the
pre-v0.13.2 special case (allow_pre_v0_13_2 with an older header version)
commitment mismatches are tolerated and the computed pair is returned;
otherwise a transaction (resp. receipt) commitment mismatch fails
TransactionCommitment (resp. ReceiptCommitment), and when everything
matches the computed pair is returned. -/
theorem verify_transactions_characterization (env : TxCommitmentEnv)
    (txs : List TransactionWithReceipt) (h : Header) (allow : Bool)
    (sv : StarknetVersion) (txC rC : Felt)
    (hsv : sv = max h.protocol_version StarknetVersion.V0_13_2)
    (htxC : txC = env.compute_transaction_commitment
      (txs.map fun tx => env.computeTxHashWithSignature tx.transaction
        (env.computeTxHash tx.transaction env.chain_id sv false) sv) sv)
    (hrC : rC = env.compute_receipt_commitment
      (txs.map fun tx => env.computeReceiptHash tx.receipt) sv) :
    (h.transaction_count ≠ txs.length →
      verify_transactions defaultValidationConfig env txs h allow =
        .error (.TransactionCount txs.length h.transaction_count)) ∧
    (h.transaction_count = txs.length →
      allow = true ∧ h.protocol_version < StarknetVersion.V0_13_2 →
      verify_transactions defaultValidationConfig env txs h allow = .ok (txC, rC)) ∧
    (h.transaction_count = txs.length →
      ¬ (allow = true ∧ h.protocol_version < StarknetVersion.V0_13_2) →
      h.transaction_commitment ≠ txC →
      verify_transactions defaultValidationConfig env txs h allow =
        .error (.TransactionCommitment txC h.transaction_commitment)) ∧
    (h.transaction_count = txs.length →
      ¬ (allow = true ∧ h.protocol_version < StarknetVersion.V0_13_2) →
      h.transaction_commitment = txC →
      h.receipt_commitment.getD 0 ≠ rC →
      verify_transactions defaultValidationConfig env txs h allow =
        .error (.ReceiptCommitment rC (h.receipt_commitment.getD 0))) ∧
    (h.transaction_count = txs.length →
      ¬ (allow = true ∧ h.protocol_version < StarknetVersion.V0_13_2) →
      h.transaction_commitment = txC →
      h.receipt_commitment.getD 0 = rC →
      verify_transactions defaultValidationConfig env txs h allow = .ok (txC, rC)) := by
  subst hsv
  have hmapfst :
      ((txs.map fun tx =>
          (env.computeTxHashWithSignature tx.transaction
            (env.computeTxHash tx.transaction env.chain_id
              (max h.protocol_version StarknetVersion.V0_13_2) false)
            (max h.protocol_version StarknetVersion.V0_13_2),
          env.computeReceiptHash tx.receipt)).map Prod.fst) =
        txs.map fun tx => env.computeTxHashWithSignature tx.transaction
          (env.computeTxHash tx.transaction env.chain_id
            (max h.protocol_version StarknetVersion.V0_13_2) false)
          (max h.protocol_version StarknetVersion.V0_13_2) := by
    simp [List.map_map, Function.comp]
  have hmapsnd :
      ((txs.map fun tx =>
          (env.computeTxHashWithSignature tx.transaction
            (env.computeTxHash tx.transaction env.chain_id
              (max h.protocol_version StarknetVersion.V0_13_2) false)
            (max h.protocol_version StarknetVersion.V0_13_2),
          env.computeReceiptHash tx.receipt)).map Prod.snd) =
        txs.map fun tx => env.computeReceiptHash tx.receipt := by
    simp [List.map_map, Function.comp]
  have hfalse : defaultValidationConfig.no_check = false := rfl
  refine ⟨?_, ?_, ?_, ?_, ?_⟩
  · intro hcount
    simp only [verify_transactions]
    rw [if_pos ⟨hfalse, hcount⟩]
  · intro hcount hspecial
    have hb : (allow && decide (h.protocol_version < StarknetVersion.V0_13_2)) = true := by
      simp [hspecial.1, hspecial.2]
    simp only [verify_transactions, hb]
    rw [if_neg (fun hc => hc.2 hcount)]
    rw [if_neg (fun hc => absurd hc.2.1 (by decide))]
    rw [if_neg (fun hc => absurd hc.2.1 (by decide))]
    rw [htxC, hrC, hmapfst, hmapsnd]
  · intro hcount hspecial htc
    have hb : (allow && decide (h.protocol_version < StarknetVersion.V0_13_2)) = false := by
      by_cases ha : allow = true
      · have hlt : ¬ h.protocol_version < StarknetVersion.V0_13_2 :=
          fun hl => hspecial ⟨ha, hl⟩
        simp [ha, hlt]
      · rw [Bool.not_eq_true] at ha
        simp [ha]
    simp only [verify_transactions, hb]
    rw [if_neg (fun hc => hc.2 hcount)]
    rw [if_pos ⟨hfalse, by trivial, by rw [hmapfst, ← htxC]; exact htc⟩]
    rw [hmapfst, ← htxC]
  · intro hcount hspecial htc hrcm
    have hb : (allow && decide (h.protocol_version < StarknetVersion.V0_13_2)) = false := by
      by_cases ha : allow = true
      · have hlt : ¬ h.protocol_version < StarknetVersion.V0_13_2 :=
          fun hl => hspecial ⟨ha, hl⟩
        simp [ha, hlt]
      · rw [Bool.not_eq_true] at ha
        simp [ha]
    simp only [verify_transactions, hb]
    rw [if_neg (fun hc => hc.2 hcount)]
    rw [if_neg (fun hc => hc.2.2 (by rw [hmapfst, ← htxC]; exact htc))]
    rw [if_pos ⟨hfalse, by trivial, by rw [hmapsnd, ← hrC]; exact hrcm⟩]
    rw [hmapsnd, ← hrC]
  · intro hcount hspecial htc hrcm
    have hb : (allow && decide (h.protocol_version < StarknetVersion.V0_13_2)) = false := by
      by_cases ha : allow = true
      · have hlt : ¬ h.protocol_version < StarknetVersion.V0_13_2 :=
          fun hl => hspecial ⟨ha, hl⟩
        simp [ha, hlt]
      · rw [Bool.not_eq_true] at ha
        simp [ha]
    simp only [verify_transactions, hb]
    rw [if_neg (fun hc => hc.2 hcount)]
    rw [if_neg (fun hc => hc.2.2 (by rw [hmapfst, ← htxC]; exact htc))]
    rw [if_neg (fun hc => hc.2.2 (by rw [hmapsnd, ← hrC]; exact hrcm))]
    rw [htxC, hrC, hmapfst, hmapsnd]

/-- C3 witness: a pre-v0.13.2 header with allow_pre_v0_13_2 set, whose
stored transaction commitment 5 disagrees with the recomputed commitment
3: verification nevertheless succeeds with the recomputed pair. -/
theorem verify_transactions_characterization_witness :
    verify_transactions defaultValidationConfig witnessTxEnv
      [{ transaction := 0, receipt := 0 }] witnessHeaderPre true = .ok (3, 4) := by
  have h := verify_transactions_characterization witnessTxEnv
    [{ transaction := 0, receipt := 0 }] witnessHeaderPre true
    (max witnessHeaderPre.protocol_version StarknetVersion.V0_13_2) 3 4 rfl rfl rfl
  exact h.2.1 rfl ⟨rfl, by decide⟩

/-- C10: the class-count check and the unexpected-class check of
verify_compile_classes are independent of the validation config: a length
mismatch between the declared classes and the check_against map always
fails ClassCount, a declared class whose hash is absent from check_against
always makes verify_compile_class fail UnexpectedClass, and the presence
of such a class makes verify_compile_classes fail, for every config
including no_check = true. -/
theorem verify_compile_classes_checks (cfg : BlockValidationConfig) (env : ClassEnv)
    (declared : List ClassInfoWithHash)
    (check_against : List (Felt × DeclaredClassCompiledClass)) :
    (check_against.length ≠ declared.length →
      verify_compile_classes cfg env declared check_against =
        .error (.ClassCount declared.length check_against.length)) ∧
    (∀ c : ClassInfoWithHash, check_against.lookup c.class_hash = none →
      verify_compile_class cfg env c check_against =
        .error (.UnexpectedClass c.class_hash)) ∧
    (∀ c ∈ declared, check_against.lookup c.class_hash = none →
      ∀ v, verify_compile_classes cfg env declared check_against ≠ .ok v) := by
  refine ⟨?_, ?_, ?_⟩
  · intro hlen
    simp [verify_compile_classes, hlen]
  · intro c hc
    simp [verify_compile_class, hc]
  · intro c hc hlookup v
    simp only [verify_compile_classes]
    by_cases hlen : check_against.length = declared.length
    · rw [if_neg (fun hne => hne hlen)]
      exact exceptMapList_error_of_mem _ declared c hc
        ⟨.UnexpectedClass c.class_hash, by simp [verify_compile_class, hlookup]⟩ v
    · rw [if_pos hlen]
      simp

/-- C10 witness: with no_check enabled, a single declared class against an
empty check_against map fails ClassCount, fails UnexpectedClass at class
level, and the list-level verification cannot succeed. -/
theorem verify_compile_classes_checks_witness :
    verify_compile_classes ⟨false, false, true⟩ witnessClassEnv [witnessClass] [] =
      .error (.ClassCount 1 0) ∧
    verify_compile_class ⟨false, false, true⟩ witnessClassEnv witnessClass [] =
      .error (.UnexpectedClass 7) ∧
    ∀ v, verify_compile_classes ⟨false, false, true⟩ witnessClassEnv [witnessClass] [] ≠
      .ok v := by
  have h := verify_compile_classes_checks ⟨false, false, true⟩ witnessClassEnv
    [witnessClass] []
  exact ⟨h.1 (by decide), h.2.1 witnessClass rfl,
    fun v => h.2.2 witnessClass (by simp) rfl v⟩

/-- C1: on a ChainHead with headers = some 1 and all other facets some 0
(no counter is none), the code of latest_full_block_n returns some 1, the
maximum of the six counters, while the specification requires the minimum,
some 0.  The code contradicts the spec (and its own name) at this input. -/
theorem latest_full_block_n_is_max_not_min :
    exampleHeadC1.latest_full_block_n = some 1 ∧
    exampleHeadC1.latest_full_block_n_specMin = some 0 ∧
    exampleHeadC1.latest_full_block_n ≠ exampleHeadC1.latest_full_block_n_specMin := by
  refine ⟨rfl, rfl, ?_⟩
  simp [ChainHead.latest_full_block_n, ChainHead.latest_full_block_n_specMin,
    exampleHeadC1, optionMax, optionMin, blockNStatus_get]

/-- C4 counterexample: at n equal to u64::MAX the addition n + 1 in set
wraps to 0, so get returns none rather than some n.  The claim as stated
for every n in u64 is therefore false at this input. -/
theorem blockNStatus_set_overflow_counterexample :
    blockNStatus_get (blockNStatus_set (some (2 ^ 64 - 1))) = none ∧
    blockNStatus_get (blockNStatus_set (some (2 ^ 64 - 1))) ≠ some (2 ^ 64 - 1) := by
  constructor
  · simp [blockNStatus_get, blockNStatus_set, U64_MOD]
  · simp [blockNStatus_get, blockNStatus_set, U64_MOD]

/-- C4 (amended): set none followed by get yields none; and for every n
whose increment does not overflow u64, set (some n) stores exactly n + 1
and a subsequent get returns some n. -/
theorem blockNStatus_roundtrip :
    blockNStatus_get (blockNStatus_set none) = none ∧
    ∀ n : Nat, n + 1 < U64_MOD →
      blockNStatus_set (some n) = n + 1 ∧
      blockNStatus_get (blockNStatus_set (some n)) = some n := by
  refine ⟨rfl, fun n hn => ?_⟩
  have hs : blockNStatus_set (some n) = n + 1 := by
    simp [blockNStatus_set, Nat.mod_eq_of_lt hn]
  exact ⟨hs, by simp [hs, blockNStatus_get]⟩

/-- C4 witness: instance of the round-trip theorem at n = 5. -/
theorem blockNStatus_roundtrip_witness :
    blockNStatus_set (some 5) = 6 ∧
    blockNStatus_get (blockNStatus_set (some 5)) = some 5 :=
  blockNStatus_roundtrip.2 5 (by norm_num [U64_MOD])

/-- Helper: the enumerate-and-all key check holds exactly when every
index below the filter length is within the event keys and allowed. -/
theorem matchKeysCode_iff (ek : List Felt) (ks : List (List Felt)) :
    matchKeysCode ek ks = true ↔
      ∀ i, i < ks.length →
        i < ek.length ∧ (ks.getD i [] = [] ∨ ek.getD i 0 ∈ ks.getD i []) := by
  unfold matchKeysCode
  rw [List.all_eq_true]
  constructor
  · intro hall i hi
    have hgd : ks.getD i [] = ks[i] := List.getD_eq_getElem ks [] hi
    have hmem : (i, ks[i]) ∈ ks.enum := by
      rw [List.mem_enum_iff_getElem?]
      exact List.getElem?_eq_getElem hi
    have h2 := hall _ hmem
    simp only [Bool.and_eq_true, decide_eq_true_eq, Bool.or_eq_true] at h2
    refine ⟨h2.1, ?_⟩
    rcases h2.2 with hemp | hcont
    · left
      rw [hgd]
      exact List.isEmpty_iff.mp hemp
    · right
      rw [hgd]
      exact List.elem_iff.mp hcont
  · intro hspec p hp
    rw [List.mem_enum_iff_getElem?] at hp
    rw [List.getElem?_eq_some] at hp
    obtain ⟨hlt, hval⟩ := hp
    obtain ⟨hlen, hok⟩ := hspec p.1 hlt
    simp only [Bool.and_eq_true, decide_eq_true_eq, Bool.or_eq_true]
    refine ⟨hlen, ?_⟩
    have hgd : ks.getD p.1 [] = p.2 := by
      rw [List.getD_eq_getElem ks [] hlt, hval]
    rw [hgd] at hok
    rcases hok with hemp | hcont
    · left
      rw [hemp]
      rfl
    · right
      exact List.elem_iff.mpr hcont

/-- Helper: the key check as an equality of booleans. -/
theorem matchKeysCode_eq_decide (ek : List Felt) (ks : List (List Felt)) :
    matchKeysCode ek ks =
      decide (∀ i, i < ks.length →
        i < ek.length ∧ (ks.getD i [] = [] ∨ ek.getD i 0 ∈ ks.getD i [])) := by
  by_cases hp : ∀ i, i < ks.length →
      i < ek.length ∧ (ks.getD i [] = [] ∨ ek.getD i 0 ∈ ks.getD i [])
  · rw [decide_eq_true hp, (matchKeysCode_iff ek ks).mpr hp]
  · rw [decide_eq_false hp]
    cases hb : matchKeysCode ek ks
    · rfl
    · exact absurd ((matchKeysCode_iff ek ks).mp hb) hp

/-- Helper: a filterMap by a guarded some is the filter of the map, when
the predicate agrees with the guard pointwise. -/
theorem filterMap_ite_eq_filter_map {α β : Type} (f : α → β) (cond : α → Bool)
    (p : β → Bool) (hp : ∀ a, p (f a) = cond a) :
    ∀ l : List α,
      (l.filterMap fun a => if cond a then some (f a) else none) = (l.map f).filter p := by
  intro l
  induction l with
  | nil => rfl
  | cons a l ih =>
    cases hca : cond a with
    | true => simp [List.filterMap_cons, List.filter_cons, hca, hp, ih]
    | false => simp [List.filterMap_cons, List.filter_cons, hca, hp, ih]

/-- C6: the events returned for a block by get_block_events are exactly
the events of the block, in block order, that satisfy the address filter
and whose keys satisfy, at every index i below the key-filter length,
that the event has more than i keys and the i-th key list is empty or
contains the i-th event key; in particular the filter [[], [1]] selects
exactly the events whose key 1 equals 1. -/
theorem get_block_events_spec :
    (∀ (block : MadaraMaybePendingBlock) (address : Option Felt)
        (keys : List (List Felt)),
      get_block_events block address keys =
        (blockEmittedEvents block).filter (specEventMatches address keys)) ∧
    (∀ block : MadaraMaybePendingBlock,
      get_block_events block none [[], [1]] =
        (blockEmittedEvents block).filter fun ev =>
          decide (1 < ev.keys.length) && (ev.keys.getD 1 0 == 1)) := by
  have hmain : ∀ (block : MadaraMaybePendingBlock) (address : Option Felt)
      (keys : List (List Felt)),
      get_block_events block address keys =
        (blockEmittedEvents block).filter (specEventMatches address keys) := by
    intro block address keys
    obtain ⟨info, receipts⟩ := block
    have haddr : ∀ x : Felt,
        (match address with
         | some a => a == x
         | none => true) =
          !(match address with
            | some a => a != x
            | none => false) := by
      intro x
      cases address with
      | none => rfl
      | some a => simp [bne]
    have hper : ∀ (bh : Option Felt) (bn : Option Nat) (th : Felt) (evs : List Event),
        (evs.filterMap fun event =>
          if (match address with
              | some a => a != event.from_address
              | none => false) then none
          else if matchKeysCode event.keys keys then
            some { from_address := event.from_address, keys := event.keys,
                   data := event.data, block_hash := bh, block_number := bn,
                   transaction_hash := th }
          else none) =
        ((evs.map fun event =>
          ({ from_address := event.from_address, keys := event.keys,
             data := event.data, block_hash := bh, block_number := bn,
             transaction_hash := th } : EmittedEvent)).filter
          (specEventMatches address keys)) := by
      intro bh bn th evs
      have hfun : (fun (event : Event) =>
          if (match address with
              | some a => a != event.from_address
              | none => false) then none
          else if matchKeysCode event.keys keys then
            some ({ from_address := event.from_address, keys := event.keys,
                    data := event.data, block_hash := bh, block_number := bn,
                    transaction_hash := th } : EmittedEvent)
          else none) =
          (fun (event : Event) =>
            if ((!(match address with
                   | some a => a != event.from_address
                   | none => false)) && matchKeysCode event.keys keys) then
              some ({ from_address := event.from_address, keys := event.keys,
                      data := event.data, block_hash := bh, block_number := bn,
                      transaction_hash := th } : EmittedEvent)
            else none) := by
        funext event
        cases address with
        | none =>
          cases h2 : matchKeysCode event.keys keys <;> simp [h2]
        | some a =>
          cases h1 : (a != event.from_address) <;>
            cases h2 : matchKeysCode event.keys keys <;> simp [h1, h2]
      rw [hfun]
      apply filterMap_ite_eq_filter_map
      intro ev
      simp only [specEventMatches]
      rw [haddr ev.from_address, matchKeysCode_eq_decide]
      cases address <;> rfl
    simp only [get_block_events, blockEmittedEvents]
    cases info with
    | pending =>
      induction receipts with
      | nil => rfl
      | cons r rs ih =>
        simp only [List.flatMap_cons, List.filter_append]
        rw [hper none none r.transaction_hash r.events] at *
        exact congrArg _ ih
    | notPending bh bn =>
      induction receipts with
      | nil => rfl
      | cons r rs ih =>
        simp only [List.flatMap_cons, List.filter_append]
        rw [hper (some bh) (some bn) r.transaction_hash r.events] at *
        exact congrArg _ ih
  refine ⟨hmain, ?_⟩
  intro block
  rw [hmain block none [[], [1]]]
  apply List.filter_congr
  intro ev _
  simp only [specEventMatches, Bool.true_and]
  by_cases h1 : 1 < ev.keys.length
  · by_cases h2 : ev.keys.getD 1 0 = 1
    · have hforall : ∀ i, i < ([[], [(1 : Felt)]] : List (List Felt)).length →
          i < ev.keys.length ∧
            (([[], [(1 : Felt)]] : List (List Felt)).getD i [] = [] ∨
              ev.keys.getD i 0 ∈ ([[], [(1 : Felt)]] : List (List Felt)).getD i []) := by
        intro i hi
        match i, hi with
        | 0, _ => exact ⟨Nat.lt_of_le_of_lt (Nat.zero_le 1) h1, Or.inl rfl⟩
        | 1, _ => exact ⟨h1, Or.inr (List.mem_singleton.mpr h2)⟩
      rw [decide_eq_true hforall, decide_eq_true h1, Bool.true_and, h2]
      rfl
    · have hneg : ¬ ∀ i, i < ([[], [(1 : Felt)]] : List (List Felt)).length →
          i < ev.keys.length ∧
            (([[], [(1 : Felt)]] : List (List Felt)).getD i [] = [] ∨
              ev.keys.getD i 0 ∈ ([[], [(1 : Felt)]] : List (List Felt)).getD i []) := by
        intro hall
        rcases (hall 1 (by norm_num)).2 with hemp | hmem
        · exact absurd hemp (by simp)
        · exact h2 (by simpa using hmem)
      have hbeq : (ev.keys.getD 1 0 == (1 : Felt)) = false := by
        rw [beq_eq_false_iff_ne]
        exact h2
      rw [decide_eq_false hneg, decide_eq_true h1, Bool.true_and, hbeq]
  · have hneg : ¬ ∀ i, i < ([[], [(1 : Felt)]] : List (List Felt)).length →
        i < ev.keys.length ∧
          (([[], [(1 : Felt)]] : List (List Felt)).getD i [] = [] ∨
            ev.keys.getD i 0 ∈ ([[], [(1 : Felt)]] : List (List Felt)).getD i []) := by
      intro hall
      exact h1 (hall 1 (by norm_num)).1
    rw [decide_eq_false hneg, decide_eq_false h1, Bool.false_and]

/-- C7: when the key count and chunk size are within the limits and the
resolved from_block exceeds the resolved to_block, get_events returns an
empty page with a null continuation token and no error. -/
theorem get_events_empty_range (env : RpcEnv) (filter : EventFilterWithPage)
    (latest F T : Nat)
    (hk : (filter.keys.getD []).length ≤ MAX_EVENTS_KEYS)
    (hc : filter.chunk_size ≤ MAX_EVENTS_CHUNK_SIZE)
    (hl : env.getBlockN (.tag .latest) = .ok latest)
    (hf : resolveFromBlock env latest filter.from_block = .ok F)
    (ht : resolveToBlock env latest filter.to_block = .ok T)
    (hgt : T < F) :
    get_events env filter = .ok { events := [], continuation_token := none } := by
  simp only [get_events]
  rw [if_neg (Nat.not_lt.mpr hk), if_neg (Nat.not_lt.mpr hc), hl]
  simp only [hf, ht]
  rw [if_pos hgt]

/-- C7 witness: a concrete filter whose from_block resolves to pending
(latest + 1 = 1) and whose to_block resolves to latest = 0 yields the
empty page. -/
theorem get_events_empty_range_witness :
    get_events witnessRpcEnv witnessEventFilter =
      .ok { events := [], continuation_token := none } :=
  get_events_empty_range witnessRpcEnv witnessEventFilter 0 1 0
    (by decide) (by decide) rfl rfl rfl (by decide)

/-- C5: calculate_transaction_hash_with_signature combines the protocol
transaction hash with the hash of the signature values exactly when the
transaction is an Invoke transaction or the block number is at least
61394, and with the hash of the empty element list otherwise. -/
theorem calculate_transaction_hash_with_signature_spec (env : HasherEnv)
    (tx : ApiTransaction) (chain_id : Felt) (block_number : Nat) :
    calculate_transaction_hash_with_signature env tx chain_id block_number =
      env.hash_elements
        (env.compute_transaction_hash tx chain_id false (some block_number))
        (if tx.kind = .invoke ∨ 61394 ≤ block_number then
          env.compute_hash_on_elements tx.signature
        else env.compute_hash_on_elements []) := by
  simp only [calculate_transaction_hash_with_signature, ge_iff_le]
  congr 1
  by_cases hk : tx.kind = .invoke
  · rw [hk]
    simp
  · have hb : (match tx.kind with
               | .invoke => true
               | _ => false) = false := by
      cases htk : tx.kind <;> first | rfl | exact absurd htk hk
    rw [hb]
    by_cases hbn : 61394 ≤ block_number
    · simp [hbn]
    · simp [hbn, hk]

/-- C8: the prefix operations of the BonsaiTransaction read overlay are
unsupported: every invocation of get_by_prefix or remove_by_prefix hits
the unreachable macro and never returns a value, so no read-path
execution may call them. -/
theorem bonsaiTransaction_prefix_ops_unsupported :
    ∀ (tx : BonsaiTransaction) (p : DatabaseKey),
      (∀ r, bonsaiTransaction_get_by_prefix tx p ≠ .returned r) ∧
      (∀ r, bonsaiTransaction_remove_by_prefix tx p ≠ .returned r) := by
  intro tx p
  exact ⟨fun r h => PanicOr.noConfusion h, fun r h => PanicOr.noConfusion h⟩
